import Mathlib

/-!
Shallow embedding of the `ai-dreaming2` orchestration core
(`dreaming_ai.py` and `multi_agent_system.py`) together with proofs of the
specification claims.

Texts are modelled as `List Char` (Python `str`), floats as `ℚ` (every
constant in the scoring code is an exact decimal), the SQLite tables as
association lists keyed by `id` where `INSERT OR REPLACE` deletes the
conflicting row and appends the new one, and all ambient randomness,
clock readings and inference-backend traffic as explicit oracle
parameters threaded through each call.
-/

namespace Dreaming

/-! ### Python string primitives -/

/-- Lowercase a text, character by character: Python `str.lower` on the
ASCII texts the scorer handles. -/
def lowerChars (l : List Char) : List Char := l.map Char.toLower

/-- Uppercase a text: Python `str.upper`. -/
def upperChars (l : List Char) : List Char := l.map Char.toUpper

/-- Python's substring test `needle in haystack`: some contiguous slice of
the haystack equals the needle. -/
def containsSub (needle : List Char) : List Char → Bool
  | [] => needle.isEmpty
  | c :: rest => needle.isPrefixOf (c :: rest) || containsSub needle rest

/-- Python's `lst[-n:]` for `n ≥ 1` (and `lst[len-n:]` in general):
the last `n` elements. -/
def takeLast (n : Nat) (l : List α) : List α := l.drop (l.length - n)

/-- Python whitespace stripped by `str.strip()`. -/
def isPyWhitespace (c : Char) : Bool :=
  c = ' ' || c = '\t' || c = '\n' || c = '\x0d' || c = '\x0b' || c = '\x0c'

/-- Python `str.strip()`. -/
def strip (l : List Char) : List Char :=
  ((l.dropWhile isPyWhitespace).reverse.dropWhile isPyWhitespace).reverse

/-- Model of `random.choice` on a nonempty sequence, driven by an oracle
index `k`. -/
def chooseNE (x : α) (xs : List α) (k : Nat) : α :=
  (x :: xs).get ⟨k % (x :: xs).length, Nat.mod_lt _ (Nat.succ_pos xs.length)⟩

theorem chooseNE_mem (x : α) (xs : List α) (k : Nat) : chooseNE x xs k ∈ x :: xs :=
  List.get_mem _ _ _

theorem containsSub_iff (needle : List Char) :
    ∀ l : List Char, containsSub needle l = true ↔ needle <:+: l := by
  intro l
  induction l with
  | nil =>
    simp [containsSub, List.isEmpty_iff]
  | cons c rest ih =>
    simp only [containsSub, Bool.or_eq_true, ih, List.infix_cons_iff,
      List.isPrefixOf_iff_prefix]

/-! ### InterestDetector (`dreaming_ai.py`) -/

/-- The `interest_keywords` list of `InterestDetector.__init__`. -/
def interest_keywords : List (List Char) :=
  ["connection".data, "pattern".data, "similar".data, "like".data, "reminds me".data,
   "what if".data, "perhaps".data, "maybe".data, "could be".data, "might".data,
   "interesting".data, "fascinating".data, "beautiful".data, "elegant".data,
   "paradox".data, "contradiction".data, "unexpected".data, "surprising".data,
   "discovery".data, "insight".data, "realization".data, "understanding".data]

/-- The `gold_strike_indicators` list of `InterestDetector.__init__`. -/
def gold_strike_indicators : List (List Char) :=
  ["breakthrough".data, "eureka".data, "suddenly clear".data, "now I see".data,
   "this explains".data, "the key is".data, "fundamental".data, "profound".data,
   "revolutionary".data, "paradigm".data, "transforms everything".data]

/-- `InterestDetector.calculate_interest_score`, line for line: start at 0,
add 0.1 for each interest keyword contained in the lowercased text, 0.5 for
each gold-strike indicator contained in it, 0.1 if the text is longer than
100 characters, 0.05 per question mark, 0.1 per exclamation mark, and cap
the result at 1.0. -/
def calculate_interest_score (thought : List Char) : ℚ :=
  let thought_lower := lowerChars thought
  let score1 : ℚ := interest_keywords.foldl
    (fun score keyword => if containsSub keyword thought_lower then score + 0.1 else score) 0
  let score2 : ℚ := gold_strike_indicators.foldl
    (fun score indicator => if containsSub indicator thought_lower then score + 0.5 else score) score1
  let score3 : ℚ := if 100 < thought.length then score2 + 0.1 else score2
  let score4 : ℚ := score3 + (thought.count '?' : ℚ) * 0.05
  let score5 : ℚ := score4 + (thought.count '!' : ℚ) * 0.1
  min score5 1

/-- `InterestDetector.is_gold_strike`: `score > 0.6 or any(indicator in
thought.lower() for indicator in self.gold_strike_indicators)`. -/
def is_gold_strike (thought : List Char) (score : ℚ) : Bool :=
  decide ((0.6 : ℚ) < score)
    || gold_strike_indicators.any (fun indicator => containsSub indicator (lowerChars thought))

/-- The additive model in the spec's words (§4.4): 0.1 times the number of
generic interest keywords occurring in the lowercased text, plus 0.5 times
the number of breakthrough keywords occurring in it, plus a length bonus
and the punctuation terms, clamped to 1.0. -/
def spec_additive_score (thought : List Char) : ℚ :=
  let tl := lowerChars thought
  min ((interest_keywords.countP (fun kw => containsSub kw tl) : ℚ) * 0.1
      + (gold_strike_indicators.countP (fun kw => containsSub kw tl) : ℚ) * 0.5
      + (if 100 < thought.length then (0.1 : ℚ) else 0)
      + (thought.count '?' : ℚ) * 0.05
      + (thought.count '!' : ℚ) * 0.1) 1

theorem foldl_if_add {α : Type} (p : α → Bool) (amt : ℚ) :
    ∀ (l : List α) (s : ℚ),
      l.foldl (fun score a => if p a then score + amt else score) s
        = s + amt * (l.countP p : ℚ) := by
  intro l
  induction l with
  | nil => intro s; simp
  | cons a t ih =>
    intro s
    by_cases hpa : p a = true
    · simp only [List.foldl_cons, hpa, if_pos, List.countP_cons_of_pos _ _ hpa, ih]
      push_cast
      ring
    · have hneg : List.countP p (a :: t) = List.countP p t :=
        List.countP_cons_of_neg _ _ hpa
      simp [List.foldl_cons, hpa, ih, hneg]

theorem calculate_eq_additive (thought : List Char) :
    calculate_interest_score thought = spec_additive_score thought := by
  simp only [calculate_interest_score, spec_additive_score, foldl_if_add]
  congr 1
  split <;> ring

/-- C2: for every input text, `calculate_interest_score` returns a value
between 0 and 1 inclusive. -/
theorem interest_score_bounded (thought : List Char) :
    0 ≤ calculate_interest_score thought ∧ calculate_interest_score thought ≤ 1 := by
  rw [calculate_eq_additive]
  constructor
  · simp only [spec_additive_score]
    apply le_min _ (by norm_num)
    split <;> positivity
  · exact min_le_right _ _

/-- C3: `calculate_interest_score` equals the spec's additive model (0.1
per generic interest keyword occurring in the lowercased text, 0.5 per
breakthrough keyword occurring, 0.1 length bonus above 100 characters,
0.05 per question mark, 0.1 per exclamation mark, clamped to 1.0), and in
particular a keyword-free short text such as "plain text" scores exactly
0. -/
theorem interest_score_additive_model :
    (∀ thought : List Char, calculate_interest_score thought = spec_additive_score thought)
      ∧ calculate_interest_score "plain text".data = 0 := by
  refine ⟨calculate_eq_additive, ?_⟩
  have h1 : interest_keywords.countP
      (fun kw => containsSub kw (lowerChars "plain text".data)) = 0 := by decide
  have h2 : gold_strike_indicators.countP
      (fun kw => containsSub kw (lowerChars "plain text".data)) = 0 := by decide
  have h3 : "plain text".data.length = 10 := by decide
  have h4 : List.count '?' "plain text".data = 0 := by decide
  have h5 : List.count '!' "plain text".data = 0 := by decide
  rw [calculate_eq_additive]
  simp only [spec_additive_score, h1, h2, h3, h4, h5]
  norm_num

/-- C1: `is_gold_strike thought score` is true exactly when `score > 0.6`
or some gold-strike indicator occurs as a substring of the lowercased
text; in particular "this is a eureka moment" is flagged gold at every
score, independently of the 0.6 threshold. -/
theorem is_gold_strike_disjunction :
    (∀ (thought : List Char) (score : ℚ),
        is_gold_strike thought score = true
          ↔ ((0.6 : ℚ) < score
              ∨ ∃ kw ∈ gold_strike_indicators, kw <:+: lowerChars thought))
      ∧ ∀ score : ℚ, is_gold_strike "this is a eureka moment".data score = true := by
  constructor
  · intro thought score
    simp [is_gold_strike, List.any_eq_true, containsSub_iff]
  · intro score
    have hany : gold_strike_indicators.any
        (fun indicator => containsSub indicator (lowerChars "this is a eureka moment".data)) = true := by
      decide
    simp [is_gold_strike, hany]

/-! ### Decimal rendering of naturals (Python `str(int)` inside f-strings) -/

/-- Little-endian decimal digits of `n`, with explicit fuel so that the
definition is structural (fuel `n` always suffices). -/
def digitsAux : Nat → Nat → List Nat
  | _, 0 => []
  | 0, _ + 1 => []
  | fuel + 1, n + 1 => (n + 1) % 10 :: digitsAux fuel ((n + 1) / 10)

def natDigits (n : Nat) : List Nat := digitsAux n n

/-- Python `str(n)` for a natural number: decimal digits, most significant
first. -/
def natStr (n : Nat) : List Char :=
  if n = 0 then ['0'] else ((natDigits n).map Nat.digitChar).reverse

def ofDigitsRev : List Nat → Nat
  | [] => 0
  | d :: ds => d + 10 * ofDigitsRev ds

theorem digitsAux_spec : ∀ fuel n, n ≤ fuel → ofDigitsRev (digitsAux fuel n) = n := by
  intro fuel
  induction fuel with
  | zero =>
    intro n hn
    interval_cases n
    simp [digitsAux, ofDigitsRev]
  | succ fuel ih =>
    intro n hn
    match n with
    | 0 => simp [digitsAux, ofDigitsRev]
    | m + 1 =>
      have hdiv : (m + 1) / 10 ≤ fuel := by
        have : (m + 1) / 10 < m + 1 := Nat.div_lt_self (Nat.succ_pos m) (by norm_num)
        omega
      simp only [digitsAux, ofDigitsRev, ih _ hdiv]
      omega

theorem natDigits_spec (n : Nat) : ofDigitsRev (natDigits n) = n :=
  digitsAux_spec n n le_rfl

theorem digitsAux_lt : ∀ fuel n d, d ∈ digitsAux fuel n → d < 10 := by
  intro fuel
  induction fuel with
  | zero =>
    intro n d hd
    match n with
    | 0 => simp [digitsAux] at hd
    | _ + 1 => simp [digitsAux] at hd
  | succ fuel ih =>
    intro n d hd
    match n with
    | 0 => simp [digitsAux] at hd
    | m + 1 =>
      simp only [digitsAux, List.mem_cons] at hd
      rcases hd with h | h
      · omega
      · exact ih _ _ h

theorem natDigits_lt (n d : Nat) (hd : d ∈ natDigits n) : d < 10 :=
  digitsAux_lt n n d hd

def charVal (c : Char) : Nat := c.toNat - 48

theorem charVal_digitChar : ∀ d < 10, charVal (Nat.digitChar d) = d := by decide

theorem digitChar_ne_underscore : ∀ d < 10, Nat.digitChar d ≠ '_' := by decide

/-- Decode the decimal rendering back to the number: the roundtrip that
makes `natStr` injective. -/
def decodeStr (l : List Char) : Nat := ofDigitsRev ((l.map charVal).reverse)

theorem decodeStr_natStr (n : Nat) : decodeStr (natStr n) = n := by
  by_cases h0 : n = 0
  · subst h0
    decide
  · simp only [natStr, h0, if_neg, not_false_iff, decodeStr, List.map_reverse,
      List.reverse_reverse, List.map_map]
    have hmap : (natDigits n).map (charVal ∘ Nat.digitChar) = (natDigits n).map id := by
      apply List.map_congr_left
      intro d hd
      simp [Function.comp, charVal_digitChar d (natDigits_lt n d hd)]
    rw [hmap, List.map_id, natDigits_spec]

theorem natStr_inj {a b : Nat} (h : natStr a = natStr b) : a = b := by
  have := congrArg decodeStr h
  rwa [decodeStr_natStr, decodeStr_natStr] at this

theorem underscore_not_mem_natStr (n : Nat) : '_' ∉ natStr n := by
  by_cases h0 : n = 0
  · subst h0; decide
  · simp only [natStr, h0, if_neg, not_false_iff, List.mem_reverse, List.mem_map]
    rintro ⟨d, hd, hdc⟩
    exact digitChar_ne_underscore d (natDigits_lt n d hd) hdc

theorem count_underscore_natStr (n : Nat) : List.count '_' (natStr n) = 0 :=
  List.count_eq_zero_of_not_mem (underscore_not_mem_natStr n)

/-! ### Message id strings -/

/-- `f"msg_{int(time.time() * 1000)}"` from
`ConversationEngine.start_conversation`. -/
def mkSeedId (ms : Nat) : List Char := "msg_".data ++ natStr ms

/-- `f"msg_{int(time.time() * 1000)}_{exchanges}"` from
`ConversationEngine.process_conversation`. -/
def mkRespId (ms exchanges : Nat) : List Char :=
  "msg_".data ++ natStr ms ++ '_' :: natStr exchanges

theorem count_underscore_mkSeedId (ms : Nat) : List.count '_' (mkSeedId ms) = 1 := by
  simp [mkSeedId, List.count_append, count_underscore_natStr]

theorem count_underscore_mkRespId (ms ex : Nat) : List.count '_' (mkRespId ms ex) = 2 := by
  simp [mkRespId, List.count_append, List.count_cons, count_underscore_natStr]

theorem mkSeedId_ne_mkRespId (a b c : Nat) : mkSeedId a ≠ mkRespId b c := by
  intro h
  have hc := congrArg (List.count '_') h
  rw [count_underscore_mkSeedId, count_underscore_mkRespId] at hc
  exact absurd hc (by norm_num)

theorem sep_head_inj :
    ∀ (v₁ v₂ w₁ w₂ : List Char), '_' ∉ v₁ → '_' ∉ v₂ →
      v₁ ++ '_' :: w₁ = v₂ ++ '_' :: w₂ → v₁ = v₂ ∧ w₁ = w₂ := by
  intro v₁
  induction v₁ with
  | nil =>
    intro v₂ w₁ w₂ _ hv₂ h
    match v₂ with
    | [] => simpa using h
    | y :: v₂' =>
      simp only [List.nil_append, List.cons_append, List.cons.injEq] at h
      exact absurd h.1 (by simp at hv₂; exact hv₂.1)
  | cons x v₁' ih =>
    intro v₂ w₁ w₂ hv₁ hv₂ h
    match v₂ with
    | [] =>
      simp only [List.cons_append, List.nil_append, List.cons.injEq] at h
      exact absurd h.1 (by simp at hv₁; exact Ne.symm hv₁.1)
    | y :: v₂' =>
      simp only [List.cons_append, List.cons.injEq] at h
      have hrest := ih v₂' w₁ w₂ (by simp at hv₁; exact hv₁.2) (by simp at hv₂; exact hv₂.2) h.2
      exact ⟨by rw [h.1, hrest.1], hrest.2⟩

theorem last_sep_inj (u₁ u₂ a₁ a₂ : List Char)
    (h₁ : '_' ∉ a₁) (h₂ : '_' ∉ a₂)
    (h : u₁ ++ '_' :: a₁ = u₂ ++ '_' :: a₂) : a₁ = a₂ := by
  have hr := congrArg List.reverse h
  simp only [List.reverse_append, List.reverse_cons, List.append_assoc,
    List.singleton_append] at hr
  have := sep_head_inj a₁.reverse a₂.reverse u₁.reverse u₂.reverse
    (by simpa using h₁) (by simpa using h₂) hr
  have hrev := this.1
  have := congrArg List.reverse hrev
  simpa using this

theorem mkRespId_inj_ex {m₁ e₁ m₂ e₂ : Nat}
    (h : mkRespId m₁ e₁ = mkRespId m₂ e₂) : e₁ = e₂ := by
  apply natStr_inj
  apply last_sep_inj ("msg_".data ++ natStr m₁) ("msg_".data ++ natStr m₂)
  · exact underscore_not_mem_natStr e₁
  · exact underscore_not_mem_natStr e₂
  · simpa only [mkRespId, List.append_assoc] using h

/-- `f"thought_{int(time.time() * 1000)}"` from `DreamingAI._dream_loop`'s
seed. -/
def mkThoughtSeedId (ms : Nat) : List Char := "thought_".data ++ natStr ms

/-- `f"thought_{int(time.time() * 1000)}_{thought_count}"` from
`DreamingAI._dream_loop`'s reasoning thoughts. -/
def mkThoughtRespId (ms count : Nat) : List Char :=
  "thought_".data ++ natStr ms ++ '_' :: natStr count

theorem count_underscore_mkThoughtSeedId (ms : Nat) :
    List.count '_' (mkThoughtSeedId ms) = 1 := by
  simp [mkThoughtSeedId, List.count_append, count_underscore_natStr]

theorem count_underscore_mkThoughtRespId (ms c : Nat) :
    List.count '_' (mkThoughtRespId ms c) = 2 := by
  simp [mkThoughtRespId, List.count_append, List.count_cons, count_underscore_natStr]

theorem mkThoughtSeedId_ne_mkThoughtRespId (a b c : Nat) :
    mkThoughtSeedId a ≠ mkThoughtRespId b c := by
  intro h
  have hc := congrArg (List.count '_') h
  rw [count_underscore_mkThoughtSeedId, count_underscore_mkThoughtRespId] at hc
  exact absurd hc (by norm_num)

theorem mkThoughtRespId_inj_count {m₁ c₁ m₂ c₂ : Nat}
    (h : mkThoughtRespId m₁ c₁ = mkThoughtRespId m₂ c₂) : c₁ = c₂ := by
  apply natStr_inj
  apply last_sep_inj ("thought_".data ++ natStr m₁) ("thought_".data ++ natStr m₂)
  · exact underscore_not_mem_natStr c₁
  · exact underscore_not_mem_natStr c₂
  · simpa only [mkThoughtRespId, List.append_assoc] using h

/-! ### takeLast lemmas -/

theorem takeLast_of_le (n : Nat) (l : List α) (h : l.length ≤ n) : takeLast n l = l := by
  simp only [takeLast]
  rw [Nat.sub_eq_zero_of_le h, List.drop_zero]

theorem length_takeLast (n : Nat) (l : List α) :
    (takeLast n l).length = min n l.length := by
  simp only [takeLast, List.length_drop]
  omega

theorem takeLast_takeLast (a b : Nat) (l : List α) :
    takeLast a (takeLast b l) = takeLast (min a b) l := by
  simp only [takeLast, List.length_drop, List.drop_drop]
  congr 1
  omega

theorem takeLast_append_takeLast (k : Nat) (u v : List α) :
    takeLast k (takeLast k u ++ v) = takeLast k (u ++ v) := by
  simp only [takeLast, List.length_append, List.length_drop,
    List.drop_append_eq_append_drop, List.drop_drop]
  congr 1
  · congr 1
    omega
  · congr 1
    omega

/-! ### MemorySystem (`dreaming_ai.py`) -/

/-- The `Thought` dataclass. -/
structure Thought where
  id : List Char
  timestamp : Nat
  content : List Char
  thought_type : List Char
  parent_id : Option (List Char)
  interest_score : ℚ
  tags : List (List Char)
deriving DecidableEq

/-- `MemorySystem` state: the in-memory short-term buffer plus the durable
`thoughts` SQLite table, modelled as the list of its rows. -/
structure MemorySystem where
  db_path : List Char
  short_term_memory : List Thought
  max_short_term : Nat
  thoughts_db : List Thought
deriving DecidableEq

/-- `MemorySystem.__init__`: empty buffer, cap 20, empty table. -/
def initMemorySystem (db_path : List Char) : MemorySystem :=
  { db_path := db_path, short_term_memory := [], max_short_term := 20, thoughts_db := [] }

/-- SQLite `INSERT OR REPLACE INTO thoughts`: any row with the same primary
key `id` is deleted and the new row inserted. -/
def upsertById (db : List Thought) (t : Thought) : List Thought :=
  db.filter (fun r => r.id ≠ t.id) ++ [t]

/-- `MemorySystem.add_thought`: append to the short-term buffer, evict the
oldest element when the cap is exceeded, and upsert into the durable
table. -/
def add_thought (m : MemorySystem) (t : Thought) : MemorySystem :=
  let st := m.short_term_memory ++ [t]
  { m with
    short_term_memory := if m.max_short_term < st.length then st.drop 1 else st,
    thoughts_db := upsertById m.thoughts_db t }

/-- `MemorySystem.get_recent_thoughts`: Python `self.short_term_memory[-limit:]`.
For `limit = 0` the slice `[-0:]` is `[0:]`, i.e. the whole buffer. -/
def get_recent_thoughts (m : MemorySystem) (limit : Nat) : List Thought :=
  if limit = 0 then m.short_term_memory else takeLast limit m.short_term_memory

/-- A sequence of `add_thought` calls. -/
def addAll (m : MemorySystem) (ts : List Thought) : MemorySystem :=
  ts.foldl add_thought m

theorem filter_upsert (db : List Thought) (t : Thought) :
    (upsertById db t).filter (fun r => r.id = t.id) = [t] := by
  simp only [upsertById, List.filter_append]
  have h1 : (db.filter (fun r => r.id ≠ t.id)).filter (fun r => r.id = t.id) = [] := by
    rw [List.filter_eq_nil_iff]
    intro a ha
    have := (List.mem_filter.mp ha).2
    simp only [decide_eq_true_eq] at this ⊢
    exact this
  have h2 : List.filter (fun r => r.id = t.id) [t] = [t] := by
    simp
  rw [h1, h2, List.nil_append]

theorem add_thought_short (m : MemorySystem) (t : Thought)
    (hlen : m.short_term_memory.length ≤ m.max_short_term) :
    (add_thought m t).short_term_memory
      = takeLast m.max_short_term (m.short_term_memory ++ [t]) := by
  by_cases h : m.max_short_term < (m.short_term_memory ++ [t]).length
  · simp only [add_thought, if_pos h]
    have hone : (m.short_term_memory ++ [t]).length - m.max_short_term = 1 := by
      simp only [List.length_append, List.length_singleton] at h ⊢
      omega
    rw [takeLast, hone]
  · simp only [add_thought, if_neg h]
    rw [takeLast_of_le _ _ (Nat.le_of_not_lt h)]

theorem addAll_short :
    ∀ (ts : List Thought) (m : MemorySystem),
      m.short_term_memory.length ≤ m.max_short_term →
      (addAll m ts).short_term_memory
          = takeLast m.max_short_term (m.short_term_memory ++ ts)
        ∧ (addAll m ts).max_short_term = m.max_short_term := by
  intro ts
  induction ts with
  | nil =>
    intro m hlen
    simp only [addAll, List.foldl_nil, List.append_nil]
    exact ⟨(takeLast_of_le _ _ hlen).symm, trivial⟩
  | cons t ts ih =>
    intro m hlen
    have hmax : (add_thought m t).max_short_term = m.max_short_term := rfl
    have hstep := add_thought_short m t hlen
    have hlen' : (add_thought m t).short_term_memory.length ≤ (add_thought m t).max_short_term := by
      rw [hstep, hmax, length_takeLast]
      omega
    have := ih (add_thought m t) hlen'
    rw [hmax] at this
    refine ⟨?_, this.2⟩
    rw [show addAll m (t :: ts) = addAll (add_thought m t) ts from rfl, this.1, hstep,
      takeLast_append_takeLast, List.append_assoc, List.singleton_append]

/-- Concrete thoughts used for counterexamples and witnesses. -/
def exThought (i : Nat) : Thought :=
  { id := natStr i, timestamp := i, content := "c".data, thought_type := "reasoning".data,
    parent_id := none, interest_score := 0, tags := [] }

def exMemory21 : MemorySystem :=
  addAll (initMemorySystem "dreaming_memory.db".data) ((List.range 21).map exThought)

/-- C6 counterexample: after 21 (> cap = 20) additions, `get_recent_thoughts 0`
returns the whole 20-element buffer, not `min 0 20 = 0` records — Python's
`lst[-0:]` slice is `lst[0:]`. -/
theorem get_recent_zero_counterexample :
    (get_recent_thoughts exMemory21 0).length = 20
      ∧ exMemory21.max_short_term = 20
      ∧ ¬ ((get_recent_thoughts exMemory21 0).length = min 0 20) := by
  refine ⟨by decide, by decide, ?_⟩
  intro h
  rw [show min 0 20 = 0 from rfl] at h
  have : (get_recent_thoughts exMemory21 0).length = 20 := by decide
  omega

/-- C6 (amended to `n ≥ 1`): after adding more than cap = 20 records to a
fresh memory, `get_recent_thoughts n` returns exactly the `min n 20`
most-recent records; records older than the last 20 additions are absent. -/
theorem get_recent_returns_min (path : List Char) (ts : List Thought) (n : Nat)
    (hk : 20 < ts.length) (hn : 1 ≤ n) :
    get_recent_thoughts (addAll (initMemorySystem path) ts) n = takeLast (min n 20) ts
      ∧ (get_recent_thoughts (addAll (initMemorySystem path) ts) n).length = min n 20 := by
  have hbuf := (addAll_short ts (initMemorySystem path) (by simp [initMemorySystem])).1
  rw [show (initMemorySystem path).max_short_term = 20 from rfl,
    show (initMemorySystem path).short_term_memory = [] from rfl, List.nil_append] at hbuf
  have hn0 : n ≠ 0 := by omega
  have heq : get_recent_thoughts (addAll (initMemorySystem path) ts) n
      = takeLast (min n 20) ts := by
    simp only [get_recent_thoughts, hn0, if_neg, not_false_iff, hbuf, takeLast_takeLast]
  refine ⟨heq, ?_⟩
  rw [heq, length_takeLast]
  omega

theorem get_recent_returns_min_witness :
    20 < ((List.range 21).map exThought).length
      ∧ 1 ≤ 5
      ∧ get_recent_thoughts (addAll (initMemorySystem []) ((List.range 21).map exThought)) 5
          = takeLast (min 5 20) ((List.range 21).map exThought) :=
  ⟨by decide, by decide,
    (get_recent_returns_min [] ((List.range 21).map exThought) 5 (by decide) (by decide)).1⟩

/-- C7: calling `add_thought` twice with records sharing one id leaves
exactly one row with that id in the durable table, carrying the second
record's content (upsert by primary key, no duplicate, no error). -/
theorem add_thought_upsert (m : MemorySystem) (t1 t2 : Thought) (hid : t1.id = t2.id) :
    (add_thought (add_thought m t1) t2).thoughts_db.filter (fun r => r.id = t1.id) = [t2] := by
  have : (add_thought (add_thought m t1) t2).thoughts_db
      = upsertById (upsertById m.thoughts_db t1) t2 := rfl
  rw [this, hid]
  exact filter_upsert _ _

def wThoughtA : Thought :=
  { id := "t1".data, timestamp := 0, content := "first".data, thought_type := "seed".data,
    parent_id := none, interest_score := 0, tags := [] }

def wThoughtB : Thought :=
  { id := "t1".data, timestamp := 1, content := "second".data, thought_type := "reasoning".data,
    parent_id := none, interest_score := 0, tags := [] }

theorem add_thought_upsert_witness :
    wThoughtA.id = wThoughtB.id
      ∧ (add_thought (add_thought (initMemorySystem []) wThoughtA) wThoughtB).thoughts_db.filter
          (fun r => r.id = wThoughtA.id) = [wThoughtB] :=
  ⟨by decide, add_thought_upsert (initMemorySystem []) wThoughtA wThoughtB (by decide)⟩

/-- C10: adding a record whose id is already in the short-term buffer (below
cap) appends a second, separate buffer entry — the buffer grows by one and
`get_recent_thoughts` can return two entries with that id — while the
durable table still holds exactly one row for the id. -/
theorem add_existing_id_duplicates_buffer (m : MemorySystem) (t : Thought)
    (hlen : m.short_term_memory.length < m.max_short_term)
    (hmem : t.id ∈ m.short_term_memory.map (fun r => r.id)) :
    (add_thought m t).short_term_memory.length = m.short_term_memory.length + 1
      ∧ 2 ≤ ((get_recent_thoughts (add_thought m t) (m.short_term_memory.length + 1)).filter
              (fun r => r.id = t.id)).length
      ∧ (add_thought m t).thoughts_db.filter (fun r => r.id = t.id) = [t] := by
  have hnodrop : ¬ m.max_short_term < (m.short_term_memory ++ [t]).length := by
    simp only [List.length_append, List.length_singleton]
    omega
  have hst : (add_thought m t).short_term_memory = m.short_term_memory ++ [t] := by
    simp only [add_thought, if_neg hnodrop]
  have hlen1 : (add_thought m t).short_term_memory.length
      = m.short_term_memory.length + 1 := by
    rw [hst]; simp
  refine ⟨hlen1, ?_, filter_upsert _ _⟩
  have hrec : get_recent_thoughts (add_thought m t) (m.short_term_memory.length + 1)
      = m.short_term_memory ++ [t] := by
    simp only [get_recent_thoughts, Nat.succ_ne_zero, if_neg, not_false_iff]
    rw [hst, takeLast_of_le]
    simp
  rw [hrec, List.filter_append]
  obtain ⟨r, hr, hrid⟩ := by
    simpa only [List.mem_map] using hmem
  have hrmem : r ∈ m.short_term_memory.filter (fun x => x.id = t.id) :=
    List.mem_filter.mpr ⟨hr, by simp [hrid]⟩
  have h1 : 1 ≤ (m.short_term_memory.filter (fun x => x.id = t.id)).length :=
    List.length_pos_of_mem hrmem
  have h2 : (List.filter (fun x => x.id = t.id) [t]).length = 1 := by
    simp
  rw [List.length_append, h2]
  omega

theorem add_existing_id_duplicates_buffer_witness :
    (add_thought (initMemorySystem []) wThoughtA).short_term_memory.length
        < (add_thought (initMemorySystem []) wThoughtA).max_short_term
      ∧ wThoughtB.id ∈ (add_thought (initMemorySystem []) wThoughtA).short_term_memory.map
          (fun r => r.id)
      ∧ (add_thought (add_thought (initMemorySystem []) wThoughtA) wThoughtB).thoughts_db.filter
          (fun r => r.id = wThoughtB.id) = [wThoughtB] :=
  ⟨by decide, by decide,
    (add_existing_id_duplicates_buffer (add_thought (initMemorySystem []) wThoughtA)
      wThoughtB (by decide) (by decide)).2.2⟩

/-! ### Multi-agent conversation system (`multi_agent_system.py`)

Ambient randomness (`random.choice`, `random.uniform`), the wall clock
(`time.time()`, `datetime.now()`, collapsed to one integer millisecond
tick per message creation) and the HTTP backend are modelled as explicit
oracle data threaded into each call. -/

/-- The `AgentMessage` dataclass. -/
structure AgentMessage where
  id : List Char
  timestamp : Nat
  agent_id : List Char
  content : List Char
  response_to : Option (List Char)
  conversation_id : List Char
  interest_score : ℚ
deriving DecidableEq

/-- The `Agent` dataclass. -/
structure Agent where
  id : List Char
  name : List Char
  personality_traits : List (List Char)
  current_focus : List Char
  model : List Char
  conversation_style : List Char
  memory_buffer : List AgentMessage
deriving DecidableEq

/-- Outcome of one HTTP call to the inference backend: a response carrying
a status code and the extracted completion text, or a raised exception
(network failure, timeout). -/
inductive BackendResult where
  | response (status : Nat) (body : List Char)
  | exc

/-- `ConversationEngine` state: the agents dict (as its ordered entries),
the conversations dict and the outbound message queue. -/
structure ConversationEngine where
  agents : List Agent
  conversations : List (List Char × List AgentMessage)
  message_queue : List AgentMessage

def lookupConv (convs : List (List Char × List AgentMessage)) (cid : List Char) :
    List AgentMessage :=
  match convs.find? (fun p => p.1 = cid) with
  | some p => p.2
  | none => []

def hasConv (convs : List (List Char × List AgentMessage)) (cid : List Char) : Bool :=
  (convs.find? (fun p => p.1 = cid)).isSome

def updateConv (convs : List (List Char × List AgentMessage)) (cid : List Char)
    (msgs : List AgentMessage) : List (List Char × List AgentMessage) :=
  convs.map (fun p => if p.1 = cid then (p.1, msgs) else p)

/-- The canned fallback sentences of `ConversationEngine._fallback_response`. -/
def fallbacks : List (List Char) :=
  ["That\x27s an interesting perspective...".data,
   "I\x27m still processing that thought.".data,
   "Something about this reminds me of...".data,
   "Let me think about this differently.".data,
   "What if we considered...".data,
   "That opens up new questions for me.".data]

/-- `ConversationEngine._fallback_response`: `random.choice(fallbacks)`. -/
def fallback_response (fb : Nat) : List Char :=
  match fallbacks with
  | [] => []
  | a :: rest => chooseNE a rest fb

/-- The seed topics of `ConversationEngine._generate_conversation_seed`. -/
def conversation_seeds : List (List Char) :=
  ["I\x27ve been thinking about the nature of time...".data,
   "What if consciousness is more like water than we think?".data,
   "There\x27s something fascinating about how patterns emerge everywhere.".data,
   "I wonder about the connection between music and mathematics.".data,
   "The way plants grow reminds me of how ideas spread.".data,
   "Have you noticed how cities breathe like living organisms?".data,
   "The space between thoughts might be where creativity lives.".data,
   "I\x27m curious about what makes something beautiful versus useful.".data,
   "The relationship between order and chaos keeps puzzling me.".data,
   "Sometimes I think language shapes reality more than we realize.".data]

/-- `ConversationEngine._generate_conversation_seed`: `random.choice(seeds)`. -/
def generate_conversation_seed (k : Nat) : List Char :=
  match conversation_seeds with
  | [] => []
  | a :: rest => chooseNE a rest k

/-- A raised Python exception, as a value. -/
inductive PyError where
  | typeError
deriving DecidableEq

/-- The per-message default `Agent("unknown", "Unknown", [], "", "")` of
the context loop (`multi_agent_system.py` line 166). The `Agent` dataclass
has six required fields — `conversation_style` has no default — but only
five arguments are passed, so evaluating this expression raises
`TypeError`. Python evaluates `dict.get`'s default argument eagerly, on
every iteration of the loop, whether or not the key is present. -/
def mkUnknownAgent : Except PyError Agent := .error .typeError

/-- The `"speaker: content\n"` context accumulation of
`ConversationEngine.generate_response`: each iteration first evaluates the
malformed `Agent(...)` default (raising `TypeError`), so the loop raises
on its first iteration whenever the message list is nonempty. -/
def renderContext (agents : List Agent) (msgs : List AgentMessage) :
    Except PyError (List Char) :=
  msgs.foldlM (fun context msg => do
    let fallback_agent ← mkUnknownAgent
    let speaker := ((agents.find? (fun a => a.id = msg.agent_id)).getD fallback_agent).name
    pure (context ++ speaker ++ ": ".data ++ msg.content ++ "\n".data)) []

def joinComma (l : List (List Char)) : List Char := List.intercalate ", ".data l

/-- `ConversationEngine._build_agent_prompt`. -/
def build_agent_prompt (agent : Agent) (context : List Char) : List Char :=
  let personality_desc := "Agent with traits: ".data ++ joinComma agent.personality_traits
  let style_desc := "Communication style: ".data ++ agent.conversation_style
  let focus_desc := "Current focus: ".data ++ agent.current_focus
  "Recent conversation:\n".data ++ context ++ "\n\n".data
    ++ personality_desc ++ "\n".data ++ style_desc ++ "\n".data ++ focus_desc
    ++ "\n\nResponse (continue the conversation naturally):".data

/-- `ConversationEngine.generate_response`: build the context from the
last 5 messages (this loop raises `TypeError` on a nonempty history, see
`renderContext`, and that exception propagates — it happens before the
`try:` block), then build the personality prompt and call the backend; on
a 200 response return the stripped completion, on any other status or on
an exception inside the `try:` return a canned fallback sentence. -/
def generate_response (agents : List Agent) (agent : Agent)
    (conversation_history : List AgentMessage)
    (backend : List Char → BackendResult) (fb : Nat) : Except PyError (List Char) :=
  let recent_messages := takeLast 5 conversation_history
  match renderContext agents recent_messages with
  | .error e => .error e
  | .ok context =>
    let prompt := build_agent_prompt agent context
    match backend prompt with
    | .response 200 body => .ok (strip body)
    | .response _ _ => .ok (fallback_response fb)
    | .exc => .ok (fallback_response fb)

/-- `ConversationEngine.start_conversation`: no-op if the id exists,
otherwise seed the conversation with a message authored by a randomly
chosen first agent and publish it. (With an empty agents dict Python's
`random.choice` raises; no claim exercises that state.) -/
def start_conversation (eng : ConversationEngine) (cid : List Char)
    (topic : Option (List Char)) (seedPick firstPick tick : Nat) : ConversationEngine :=
  if hasConv eng.conversations cid then eng
  else
    let seed_message := match topic with
      | some t => if t = [] then generate_conversation_seed seedPick else t
      | none => generate_conversation_seed seedPick
    match eng.agents with
    | [] => eng
    | a :: rest =>
      let first_agent := chooseNE a rest firstPick
      let initial_message : AgentMessage :=
        { id := mkSeedId tick, timestamp := tick, agent_id := first_agent.id,
          content := seed_message, response_to := none, conversation_id := cid,
          interest_score := 0 }
      { agents := eng.agents,
        conversations := eng.conversations ++ [(cid, [initial_message])],
        message_queue := eng.message_queue ++ [initial_message] }

/-- Append to an agent's bounded `memory_buffer` (cap 10, FIFO eviction). -/
def pushBuffer (a : Agent) (msg : AgentMessage) : Agent :=
  let buf := a.memory_buffer ++ [msg]
  { a with memory_buffer := if 10 < buf.length then buf.drop 1 else buf }

/-- Oracle data consumed by one iteration of the processing loop: the
speaker choice, the backend's behaviour, the fallback choice and the
clock tick. -/
structure IterChoice where
  pick : Nat
  backend : List Char → BackendResult
  fb : Nat
  tick : Nat

/-- One iteration of the `while exchanges < max_exchanges` loop of
`ConversationEngine.process_conversation`: select a speaker among the
agents other than the previous one (`break` when none), generate a
response — an exception raised there is caught by the surrounding
`try/except` and breaks the whole loop — and if the response is non-empty
append it to the conversation, publish it, push it onto the speaker's
buffer and count the exchange. The `Bool` result is the `break` flag. -/
def processIter (eng : ConversationEngine) (cid : List Char) (exchanges : Nat)
    (ch : IterChoice) : ConversationEngine × Nat × Bool :=
  let conversation := lookupConv eng.conversations cid
  let last_speaker : Option (List Char) := conversation.getLast?.map (fun m => m.agent_id)
  match eng.agents.filter (fun a => some a.id ≠ last_speaker) with
  | [] => (eng, exchanges, true)
  | a :: rest =>
    let next_agent := chooseNE a rest ch.pick
    match generate_response eng.agents next_agent conversation ch.backend ch.fb with
    | .error _ => (eng, exchanges, true)
    | .ok response_content =>
    if response_content = [] then (eng, exchanges, false)
    else
      let response_msg : AgentMessage :=
        { id := mkRespId ch.tick exchanges, timestamp := ch.tick,
          agent_id := next_agent.id, content := response_content,
          response_to := conversation.getLast?.map (fun m => m.id),
          conversation_id := cid, interest_score := 0 }
      ({ agents := eng.agents.map
            (fun a2 => if a2.id = next_agent.id then pushBuffer a2 response_msg else a2),
         conversations := updateConv eng.conversations cid (conversation ++ [response_msg]),
         message_queue := eng.message_queue ++ [response_msg] },
       exchanges + 1, false)

/-- The processing loop, with explicit fuel bounding the number of
iterations (the Python loop retries an iteration without counting it when
the generated content is empty, so the exchange counter alone does not
bound iterations). Returns the engine and the final exchange count. -/
def processLoop (cid : List Char) (maxEx : Nat) (oracle : Nat → IterChoice) :
    Nat → Nat → Nat → ConversationEngine → ConversationEngine × Nat
  | 0, _, exchanges, eng => (eng, exchanges)
  | fuel + 1, i, exchanges, eng =>
    if exchanges < maxEx then
      let r := processIter eng cid exchanges (oracle i)
      if r.2.2 then (r.1, r.2.1)
      else processLoop cid maxEx oracle fuel (i + 1) r.2.1 r.1
    else (eng, exchanges)

/-- `ConversationEngine.process_conversation`: return unchanged when the
conversation id is unknown, otherwise run the exchange loop from counter
0. -/
def process_conversation (eng : ConversationEngine) (cid : List Char) (maxEx : Nat)
    (oracle : Nat → IterChoice) (fuel : Nat) : ConversationEngine × Nat :=
  if hasConv eng.conversations cid then processLoop cid maxEx oracle fuel 0 0 eng
  else (eng, 0)

/-! ### ReasoningEngine (`dreaming_ai.py`) and the backend-failure claim -/

/-- The reasoning modes of `ReasoningEngine.__init__`. -/
def reasoning_modes : List (List Char) :=
  ["free_association".data, "logical_deduction".data, "creative_what_if".data,
   "pattern_recognition".data, "analogical_reasoning".data]

/-- `ReasoningEngine._build_prompt`: mode-specific instruction appended to
the rendered context. -/
def build_prompt (context : List Char) (mode : List Char) : List Char :=
  let base_context := if context = [] then [] else
    "Previous thoughts:\n".data ++ context ++ "\n\n".data
  if mode = "free_association".data then
    base_context ++ "Let your mind wander freely. What comes to mind next?".data
  else if mode = "logical_deduction".data then
    base_context ++ "Following logical steps, what conclusion emerges?".data
  else if mode = "creative_what_if".data then
    base_context ++ "What if we imagined something completely different? What if...".data
  else if mode = "pattern_recognition".data then
    base_context ++ "Looking at these ideas, what patterns or connections do you notice?".data
  else if mode = "analogical_reasoning".data then
    base_context ++ "How might this be similar to something else entirely? What analogy comes to mind?".data
  else base_context ++ "What thought arises naturally?".data

/-- Context and prompt assembly of `ReasoningEngine.generate_thought`: the
mode (`random.choice` when `None`), the last 5 thoughts rendered as
`[KIND] content` joined by newlines, fed to `_build_prompt`. -/
def thought_prompt (context : List Thought) (mode : Option (List Char)) (modePick : Nat) :
    List Char :=
  let mode := match mode with
    | some m => m
    | none => match reasoning_modes with
      | [] => []
      | a :: rest => chooseNE a rest modePick
  let context_str := if context = [] then [] else
    List.intercalate "\n".data ((takeLast 5 context).map
      (fun t => "[".data ++ upperChars t.thought_type ++ "] ".data ++ t.content))
  build_prompt context_str mode

/-- The two canned filler sentences of `ReasoningEngine.generate_thought`:
the non-200-status sentence and the exception sentence. -/
def dream_fillers : List (List Char) :=
  ["I notice something interesting about the nature of thought itself...".data,
   "In this moment of silence, new possibilities emerge...".data]

/-- `ReasoningEngine.generate_thought`: call the backend on the built
prompt; on a 200 response return the stripped completion, on any other
status or on an exception return a canned filler sentence. -/
def generate_thought (context : List Thought) (mode : Option (List Char)) (modePick : Nat)
    (backend : List Char → BackendResult) : List Char :=
  match backend (thought_prompt context mode modePick) with
  | .response 200 body => strip body
  | .response _ _ => "I notice something interesting about the nature of thought itself...".data
  | .exc => "In this moment of silence, new possibilities emerge...".data

/-- Whether a backend outcome is a success (HTTP 200). -/
def isSuccess : BackendResult → Bool
  | .response 200 _ => true
  | .response _ _ => false
  | .exc => false

theorem renderContext_nil (agents : List Agent) :
    renderContext agents [] = Except.ok [] := rfl

theorem renderContext_cons (agents : List Agent) (m : AgentMessage)
    (ms : List AgentMessage) :
    renderContext agents (m :: ms) = Except.error PyError.typeError := rfl

theorem takeLast_ne_nil {n : Nat} (hn : 1 ≤ n) {l : List α} (hl : l ≠ []) :
    takeLast n l ≠ [] := by
  intro h
  have hlen := length_takeLast n l
  rw [h] at hlen
  simp only [List.length_nil] at hlen
  cases l with
  | nil => exact hl rfl
  | cons x xs =>
    simp only [List.length_cons] at hlen
    omega

theorem fallback_response_mem (fb : Nat) : fallback_response fb ∈ fallbacks := by
  have h : fallback_response fb
      = chooseNE "That\x27s an interesting perspective...".data
          ["I\x27m still processing that thought.".data,
           "Something about this reminds me of...".data,
           "Let me think about this differently.".data,
           "What if we considered...".data,
           "That opens up new questions for me.".data] fb := rfl
  rw [h]
  exact chooseNE_mem _ _ _

/-- C4 (code bug): the single-loop `generate_thought` does degrade every
backend failure (non-200 status or exception) to a canned filler
sentence, and so does `generate_response` when its history is empty; but
for every nonempty history `generate_response` raises `TypeError` before
any backend call — the per-message default `Agent("unknown", "Unknown",
[], "", "")` at `multi_agent_system.py` line 166 omits the required
`conversation_style` argument and is evaluated eagerly by `dict.get` —
so the exception propagates out of `generate_response` regardless of the
backend's behaviour, and `process_conversation` catches it and aborts the
conversation. -/
theorem backend_failure_filler_and_typeerror :
    (∀ (context : List Thought) (mode : Option (List Char)) (modePick : Nat)
        (backend : List Char → BackendResult),
        isSuccess (backend (thought_prompt context mode modePick)) = false →
        generate_thought context mode modePick backend ∈ dream_fillers)
      ∧ (∀ (agents : List Agent) (agent : Agent) (msg : AgentMessage)
          (history : List AgentMessage) (backend : List Char → BackendResult) (fb : Nat),
          generate_response agents agent (msg :: history) backend fb
            = Except.error PyError.typeError)
      ∧ (∀ (agents : List Agent) (agent : Agent) (backend : List Char → BackendResult)
          (fb : Nat),
          isSuccess (backend (build_agent_prompt agent [])) = false →
          generate_response agents agent [] backend fb
            = Except.ok (fallback_response fb)) := by
  refine ⟨?_, ?_, ?_⟩
  · intro context mode modePick backend h
    rcases hb : backend (thought_prompt context mode modePick) with ⟨status, body⟩ | _
    · rw [hb] at h
      by_cases hs : status = 200
      · subst hs
        simp [isSuccess] at h
      · simp only [generate_thought, hb]
        simp [dream_fillers]
    · simp only [generate_thought, hb]
      simp [dream_fillers]
  · intro agents agent msg history backend fb
    cases htl : takeLast 5 (msg :: history) with
    | nil =>
      exact absurd htl (takeLast_ne_nil (by omega) (by simp))
    | cons m' ms' =>
      simp only [generate_response, htl, renderContext_cons]
  · intro agents agent backend fb h
    have htl : takeLast 5 ([] : List AgentMessage) = [] := rfl
    simp only [generate_response, htl, renderContext_nil]
    rcases hb : backend (build_agent_prompt agent []) with ⟨status, body⟩ | _
    · rw [hb] at h
      by_cases hs : status = 200
      · subst hs
        simp [isSuccess] at h
      · simp
    · simp

def wAgent : Agent :=
  { id := "a0".data, name := "Dreamer-0a0".data, personality_traits := ["creative".data],
    current_focus := "origins".data, model := "phi3:mini".data,
    conversation_style := "storytelling".data, memory_buffer := [] }

def wMessage : AgentMessage :=
  { id := "msg_1".data, timestamp := 1, agent_id := "a0".data, content := "hello".data,
    response_to := none, conversation_id := "c1".data, interest_score := 0 }

theorem backend_failure_filler_and_typeerror_witness :
    isSuccess ((fun _ => BackendResult.exc) (thought_prompt [] none 0)) = false
      ∧ generate_thought [] none 0 (fun _ => BackendResult.exc) ∈ dream_fillers
      ∧ generate_response [] wAgent [wMessage] (fun _ => BackendResult.exc) 0
          = Except.error PyError.typeError
      ∧ isSuccess ((fun _ => BackendResult.exc) (build_agent_prompt wAgent [])) = false
      ∧ generate_response [] wAgent [] (fun _ => BackendResult.exc) 0
          = Except.ok (fallback_response 0) :=
  ⟨rfl, backend_failure_filler_and_typeerror.1 [] none 0 (fun _ => BackendResult.exc) rfl,
    backend_failure_filler_and_typeerror.2.1 [] wAgent wMessage []
      (fun _ => BackendResult.exc) 0,
    rfl,
    backend_failure_filler_and_typeerror.2.2 [] wAgent (fun _ => BackendResult.exc) 0 rfl⟩

/-! ### DreamingAI._dream_loop (`dreaming_ai.py`)

The single-loop session: `OutputManager` display and file writes are
external I/O and carry no state the claims mention; the seed text
produced by `ThoughtSeeder.generate_seed()` and the ambient flag, clock
and backend are oracle inputs. -/

/-- `DreamingAI` session state touched by `_dream_loop`: the memory
system's short-term buffer and `thoughts` table, the `golden_thoughts`
table rows (thought, discovery_context), and the `thoughts_generated`
list. -/
structure DreamState where
  memory : MemorySystem
  golden : List (Thought × List Char)
  thoughts_generated : List Thought

/-- `MemorySystem.add_golden_thought`: SQLite `INSERT OR REPLACE INTO
golden_thoughts` keyed on `id`. -/
def add_golden_thought (db : List (Thought × List Char)) (t : Thought) (ctx : List Char) :
    List (Thought × List Char) :=
  db.filter (fun r => r.1.id ≠ t.id) ++ [(t, ctx)]

/-- `DreamingAI._process_thought`: score the thought, on a gold strike set
its type and record it in the golden table, then store it in memory and
append it to `thoughts_generated` (display is external I/O). -/
def process_thought (st : DreamState) (thought : Thought) : DreamState :=
  let score := calculate_interest_score thought.content
  if is_gold_strike thought.content score then
    let t2 : Thought :=
      { thought with interest_score := score, thought_type := "gold_strike".data }
    { memory := add_thought st.memory t2,
      golden := add_golden_thought st.golden t2
        "Autonomous discovery during dreaming".data,
      thoughts_generated := st.thoughts_generated ++ [t2] }
  else
    let t1 : Thought := { thought with interest_score := score }
    { memory := add_thought st.memory t1,
      golden := st.golden,
      thoughts_generated := st.thoughts_generated ++ [t1] }

/-- Oracle data consumed by one iteration of the dreaming loop: the
`is_dreaming` flag read at the loop condition (cooperative cancellation),
the clock tick, the mode choice and the backend's behaviour. -/
structure DreamChoice where
  running : Bool
  tick : Nat
  modePick : Nat
  backend : List Char → BackendResult

/-- The `while self.is_dreaming and thought_count < max_thoughts` loop of
`DreamingAI._dream_loop`, with explicit fuel bounding the iterations (an
iteration whose generated content is empty does not advance the counter;
the per-iteration `except` only logs and continues, and the body of this
embedding is total). -/
def dreamLoopAux (max_thoughts : Nat) (oracle : Nat → DreamChoice) :
    Nat → Nat → Nat → DreamState → DreamState
  | 0, _, _, st => st
  | fuel + 1, i, thought_count, st =>
    if (oracle i).running = true ∧ thought_count < max_thoughts then
      let context := get_recent_thoughts st.memory 10
      let new_content := generate_thought context none (oracle i).modePick (oracle i).backend
      if new_content = [] then
        dreamLoopAux max_thoughts oracle fuel (i + 1) thought_count st
      else
        let new_thought : Thought :=
          { id := mkThoughtRespId (oracle i).tick thought_count,
            timestamp := (oracle i).tick, content := new_content,
            thought_type := "reasoning".data,
            parent_id := context.getLast?.map (fun t => t.id),
            interest_score := 0, tags := [] }
        dreamLoopAux max_thoughts oracle fuel (i + 1) (thought_count + 1)
          (process_thought st new_thought)
    else st

/-- `DreamingAI._dream_loop`: process the seed thought (counter becomes
1), then run the reasoning loop. -/
def dream_loop (seedContent : List Char) (seedTick max_thoughts : Nat)
    (oracle : Nat → DreamChoice) (fuel : Nat) (st0 : DreamState) : DreamState :=
  let seed_thought : Thought :=
    { id := mkThoughtSeedId seedTick, timestamp := seedTick, content := seedContent,
      thought_type := "seed".data, parent_id := none, interest_score := 0, tags := [] }
  dreamLoopAux max_thoughts oracle fuel 0 1 (process_thought st0 seed_thought)

theorem process_thought_generated (st : DreamState) (t : Thought) :
    ∃ t' : Thought, t'.id = t.id
      ∧ (process_thought st t).thoughts_generated = st.thoughts_generated ++ [t'] := by
  simp only [process_thought]
  split
  · exact ⟨{ t with
      interest_score := calculate_interest_score t.content
      thought_type := "gold_strike".data }, rfl, rfl⟩
  · exact ⟨{ t with interest_score := calculate_interest_score t.content }, rfl, rfl⟩

theorem process_thought_inv (st : DreamState) (tk count : Nat) (t : Thought)
    (htid : t.id = mkThoughtRespId tk count)
    (hnd : (st.thoughts_generated.map (fun x => x.id)).Nodup)
    (hforms : ∀ x ∈ st.thoughts_generated,
        (∃ ms, x.id = mkThoughtSeedId ms)
          ∨ ∃ ms c, c < count ∧ x.id = mkThoughtRespId ms c) :
    ((process_thought st t).thoughts_generated.map (fun x => x.id)).Nodup
      ∧ ∀ x ∈ (process_thought st t).thoughts_generated,
          (∃ ms, x.id = mkThoughtSeedId ms)
            ∨ ∃ ms c, c < count + 1 ∧ x.id = mkThoughtRespId ms c := by
  obtain ⟨t', ht'id, ht'gen⟩ := process_thought_generated st t
  rw [ht'gen]
  have hid' : t'.id = mkThoughtRespId tk count := by rw [ht'id, htid]
  have hnotmem : t'.id ∉ st.thoughts_generated.map (fun x => x.id) := by
    intro hmem
    obtain ⟨x, hxmem, hxid⟩ := List.mem_map.mp hmem
    rcases hforms x hxmem with ⟨ms, hseed⟩ | ⟨ms, c, hlt, hresp⟩
    · exact mkThoughtSeedId_ne_mkThoughtRespId ms tk count (by rw [← hseed, hxid, hid'])
    · have : c = count := mkThoughtRespId_inj_count (by rw [← hresp, hxid, hid'])
      omega
  constructor
  · rw [List.map_append, List.nodup_append]
    refine ⟨hnd, List.nodup_singleton _, ?_⟩
    intro y hy hy2
    simp only [List.map_cons, List.map_nil, List.mem_singleton] at hy2
    rw [hy2] at hy
    exact hnotmem hy
  · intro x hx
    rcases List.mem_append.mp hx with h | h
    · rcases hforms x h with ⟨ms, hseed⟩ | ⟨ms, c, hlt, hresp⟩
      · exact Or.inl ⟨ms, hseed⟩
      · exact Or.inr ⟨ms, c, by omega, hresp⟩
    · rw [List.mem_singleton] at h
      subst h
      exact Or.inr ⟨tk, count, by omega, hid'⟩

theorem dreamLoopAux_inv (maxT : Nat) (oracle : Nat → DreamChoice) :
    ∀ (fuel i count : Nat) (st : DreamState),
      (st.thoughts_generated.map (fun t => t.id)).Nodup →
      (∀ t ∈ st.thoughts_generated,
          (∃ ms, t.id = mkThoughtSeedId ms)
            ∨ ∃ ms c, c < count ∧ t.id = mkThoughtRespId ms c) →
      ∃ count2 : Nat,
        ((dreamLoopAux maxT oracle fuel i count st).thoughts_generated.map
            (fun t => t.id)).Nodup
          ∧ ∀ t ∈ (dreamLoopAux maxT oracle fuel i count st).thoughts_generated,
              (∃ ms, t.id = mkThoughtSeedId ms)
                ∨ ∃ ms c, c < count2 ∧ t.id = mkThoughtRespId ms c := by
  intro fuel
  induction fuel with
  | zero =>
    intro i count st hnd hforms
    exact ⟨count, hnd, hforms⟩
  | succ fuel ih =>
    intro i count st hnd hforms
    simp only [dreamLoopAux]
    split
    · split
      · exact ih (i + 1) count st hnd hforms
      · refine ih (i + 1) (count + 1) _ ?_ ?_
        · exact (process_thought_inv st (oracle i).tick count _ rfl hnd hforms).1
        · exact (process_thought_inv st (oracle i).tick count _ rfl hnd hforms).2
    · exact ⟨count, hnd, hforms⟩

/-- Per-session uniqueness of thought ids in the single reasoning loop:
the seed id `thought_<ms>` holds one underscore, each reasoning id
`thought_<ms>_<count>` two, and the counter suffix strictly increases. -/
theorem dream_session_ids_nodup (seedContent : List Char) (seedTick maxT fuel : Nat)
    (oracle : Nat → DreamChoice) (st0 : DreamState)
    (hgen : st0.thoughts_generated = []) :
    ((dream_loop seedContent seedTick maxT oracle fuel st0).thoughts_generated.map
      (fun t => t.id)).Nodup := by
  obtain ⟨t', ht'id, ht'gen⟩ := process_thought_generated st0
    { id := mkThoughtSeedId seedTick, timestamp := seedTick, content := seedContent,
      thought_type := "seed".data, parent_id := none, interest_score := 0, tags := [] }
  have hnd1 : ((process_thought st0
      { id := mkThoughtSeedId seedTick, timestamp := seedTick, content := seedContent,
        thought_type := "seed".data, parent_id := none, interest_score := 0,
        tags := [] }).thoughts_generated.map (fun t => t.id)).Nodup := by
    rw [ht'gen, hgen]
    simp
  have hforms1 : ∀ t ∈ (process_thought st0
      { id := mkThoughtSeedId seedTick, timestamp := seedTick, content := seedContent,
        thought_type := "seed".data, parent_id := none, interest_score := 0,
        tags := [] }).thoughts_generated,
      (∃ ms, t.id = mkThoughtSeedId ms) ∨ ∃ ms c, c < 1 ∧ t.id = mkThoughtRespId ms c := by
    rw [ht'gen, hgen]
    intro t ht
    simp only [List.nil_append, List.mem_singleton] at ht
    subst ht
    exact Or.inl ⟨seedTick, by rw [ht'id]⟩
  obtain ⟨c2, hnd2, _⟩ := dreamLoopAux_inv maxT oracle fuel 0 1 _ hnd1 hforms1
  simp only [dream_loop]
  exact hnd2

/-! ### Conversation-dict lemmas -/

theorem find?_updateConv (convs : List (List Char × List AgentMessage)) (cid : List Char)
    (msgs : List AgentMessage) :
    (updateConv convs cid msgs).find? (fun p => p.1 = cid)
      = (convs.find? (fun p => p.1 = cid)).map (fun p => (p.1, msgs)) := by
  induction convs with
  | nil => rfl
  | cons q t ih =>
    by_cases h : q.1 = cid
    · simp only [updateConv, List.map_cons, if_pos h]
      rw [List.find?_cons_of_pos _ (by simp [h]), List.find?_cons_of_pos _ (by simp [h])]
      rfl
    · simp only [updateConv, List.map_cons, if_neg h]
      rw [List.find?_cons_of_neg _ (by simp [h]), List.find?_cons_of_neg _ (by simp [h])]
      simpa only [updateConv] using ih

theorem lookupConv_updateConv (convs : List (List Char × List AgentMessage)) (cid : List Char)
    (msgs : List AgentMessage) (h : hasConv convs cid = true) :
    lookupConv (updateConv convs cid msgs) cid = msgs := by
  obtain ⟨p, hp⟩ := Option.isSome_iff_exists.mp (by simpa only [hasConv] using h)
  rw [lookupConv, find?_updateConv, hp]
  rfl

theorem hasConv_updateConv (convs : List (List Char × List AgentMessage)) (cid : List Char)
    (msgs : List AgentMessage) :
    hasConv (updateConv convs cid msgs) cid = hasConv convs cid := by
  rw [hasConv, hasConv, find?_updateConv]
  cases convs.find? (fun p => p.1 = cid) <;> rfl

theorem lookupConv_of_hasConv_false (convs : List (List Char × List AgentMessage))
    (cid : List Char) (h : hasConv convs cid = false) :
    lookupConv convs cid = [] := by
  rw [lookupConv]
  cases hfind : convs.find? (fun p => p.1 = cid) with
  | none => rfl
  | some p => rw [hasConv, hfind] at h; simp at h

theorem find?_of_hasConv_false (convs : List (List Char × List AgentMessage))
    (cid : List Char) (h : hasConv convs cid = false) :
    convs.find? (fun p => p.1 = cid) = none := by
  cases hfind : convs.find? (fun p => p.1 = cid) with
  | none => rfl
  | some p => rw [hasConv, hfind] at h; simp at h

theorem lookupConv_append_fresh (convs : List (List Char × List AgentMessage))
    (cid : List Char) (msgs : List AgentMessage) (h : hasConv convs cid = false) :
    lookupConv (convs ++ [(cid, msgs)]) cid = msgs := by
  rw [lookupConv, List.find?_append, find?_of_hasConv_false convs cid h,
    Option.none_or, List.find?_cons_of_pos _ (by simp)]

theorem hasConv_append_self (convs : List (List Char × List AgentMessage))
    (cid : List Char) (msgs : List AgentMessage) :
    hasConv (convs ++ [(cid, msgs)]) cid = true := by
  rw [hasConv, List.find?_append]
  cases hfind : convs.find? (fun p => p.1 = cid) with
  | none => rw [Option.none_or, List.find?_cons_of_pos _ (by simp)]; rfl
  | some p => rfl

/-! ### One processing iteration -/

theorem processIter_spec (eng : ConversationEngine) (cid : List Char) (ex : Nat)
    (ch : IterChoice) :
    ((processIter eng cid ex ch).1 = eng ∧ (processIter eng cid ex ch).2.1 = ex)
      ∨ ∃ m : AgentMessage,
          m.id = mkRespId ch.tick ex
          ∧ (∀ lm, (lookupConv eng.conversations cid).getLast? = some lm →
              m.agent_id ≠ lm.agent_id)
          ∧ (processIter eng cid ex ch).1.conversations
              = updateConv eng.conversations cid (lookupConv eng.conversations cid ++ [m])
          ∧ (processIter eng cid ex ch).2.1 = ex + 1 := by
  simp only [processIter]
  split
  · exact Or.inl ⟨rfl, rfl⟩
  · next a rest hfilter =>
    split
    · exact Or.inl ⟨rfl, rfl⟩
    · split
      · exact Or.inl ⟨rfl, rfl⟩
      · refine Or.inr ⟨_, rfl, ?_, rfl, rfl⟩
        intro lm hlast heq
        have hmem : chooseNE a rest ch.pick
            ∈ eng.agents.filter (fun a2 => some a2.id
                ≠ (lookupConv eng.conversations cid).getLast?.map (fun m => m.agent_id)) := by
          rw [hfilter]
          exact chooseNE_mem a rest ch.pick
        have hpred := (List.mem_filter.mp hmem).2
        rw [hlast] at hpred
        simp only [decide_eq_true_eq] at hpred
        refine absurd ?_ hpred
        have hid : (chooseNE a rest ch.pick).id = lm.agent_id := heq
        rw [hid]
        rfl

theorem processIter_hasConv (eng : ConversationEngine) (cid : List Char) (ex : Nat)
    (ch : IterChoice) (h : hasConv eng.conversations cid = true) :
    hasConv (processIter eng cid ex ch).1.conversations cid = true := by
  rcases processIter_spec eng cid ex ch with ⟨he, _⟩ | ⟨m, _, _, hconv, _⟩
  · rw [he]; exact h
  · rw [hconv, hasConv_updateConv]; exact h

/-! ### The processing loop preserves conversation invariants -/

theorem processLoop_inv (cid : List Char) (maxEx : Nat) (oracle : Nat → IterChoice)
    (P : List AgentMessage → Nat → Prop)
    (hstep : ∀ (eng : ConversationEngine) (ex : Nat) (ch : IterChoice),
        hasConv eng.conversations cid = true →
        P (lookupConv eng.conversations cid) ex →
        P (lookupConv (processIter eng cid ex ch).1.conversations cid)
          (processIter eng cid ex ch).2.1) :
    ∀ (fuel i ex : Nat) (eng : ConversationEngine),
      hasConv eng.conversations cid = true →
      P (lookupConv eng.conversations cid) ex →
      P (lookupConv (processLoop cid maxEx oracle fuel i ex eng).1.conversations cid)
          (processLoop cid maxEx oracle fuel i ex eng).2
        ∧ hasConv (processLoop cid maxEx oracle fuel i ex eng).1.conversations cid = true := by
  intro fuel
  induction fuel with
  | zero =>
    intro i ex eng hc hp
    exact ⟨hp, hc⟩
  | succ fuel ih =>
    intro i ex eng hc hp
    simp only [processLoop]
    split
    · split
      · exact ⟨hstep eng ex (oracle i) hc hp, processIter_hasConv eng cid ex (oracle i) hc⟩
      · exact ih (i + 1) _ _ (processIter_hasConv eng cid ex (oracle i) hc)
          (hstep eng ex (oracle i) hc hp)
    · exact ⟨hp, hc⟩

/-! ### start_conversation lemmas -/

theorem start_conversation_nil (eng0 : ConversationEngine) (cid : List Char)
    (topic : Option (List Char)) (sp fp tick : Nat) (hag : eng0.agents = []) :
    start_conversation eng0 cid topic sp fp tick = eng0 := by
  rw [start_conversation.eq_def]
  split
  · rfl
  · simp only [hag]

theorem start_conversation_spec (eng0 : ConversationEngine) (cid : List Char)
    (topic : Option (List Char)) (sp fp tick : Nat) (a : Agent) (rest : List Agent)
    (hag : eng0.agents = a :: rest) (hfresh : hasConv eng0.conversations cid = false) :
    (start_conversation eng0 cid topic sp fp tick).agents = eng0.agents
      ∧ hasConv (start_conversation eng0 cid topic sp fp tick).conversations cid = true
      ∧ ∃ msg : AgentMessage, msg.id = mkSeedId tick
          ∧ msg.agent_id = (chooseNE a rest fp).id
          ∧ lookupConv (start_conversation eng0 cid topic sp fp tick).conversations cid
              = [msg] := by
  rw [start_conversation.eq_def, if_neg (by simp [hfresh])]
  rw [hag]
  exact ⟨rfl, hasConv_append_self _ _ _, _, rfl, rfl,
    lookupConv_append_fresh _ _ _ hfresh⟩

theorem chooseNE_singleton (x : α) (k : Nat) : chooseNE x [] k = x := by
  simp [chooseNE, Nat.mod_one]

/-- C5: starting a conversation and processing it for any exchange bound,
with any oracle behaviour, never places the same agent id in two
consecutive positions of the conversation's message sequence: each
speaker is drawn from the agents other than the immediately preceding
speaker. -/
theorem no_consecutive_speakers (eng0 : ConversationEngine) (cid : List Char)
    (topic : Option (List Char)) (sp fp tick maxEx fuel : Nat) (oracle : Nat → IterChoice)
    (hagents : 2 ≤ eng0.agents.length)
    (hfresh : hasConv eng0.conversations cid = false) :
    List.Chain' (fun m1 m2 => m1.agent_id ≠ m2.agent_id)
      (lookupConv (process_conversation (start_conversation eng0 cid topic sp fp tick)
          cid maxEx oracle fuel).1.conversations cid) := by
  match hag : eng0.agents with
  | [] =>
    rw [hag] at hagents
    simp at hagents
  | a :: rest =>
    obtain ⟨hagents1, hconv1, msg, hmsgid, hmsgagent, hlookup1⟩ :=
      start_conversation_spec eng0 cid topic sp fp tick a rest hag hfresh
    rw [process_conversation, if_pos hconv1]
    refine (processLoop_inv cid maxEx oracle
      (fun conv _ => List.Chain' (fun m1 m2 => m1.agent_id ≠ m2.agent_id) conv)
      ?_ fuel 0 0 _ hconv1 ?_).1
    · intro eng ex ch hc hp
      rcases processIter_spec eng cid ex ch with ⟨he, _⟩ | ⟨m, _, hne, hconv, _⟩
      · rw [he]
        exact hp
      · rw [hconv, lookupConv_updateConv _ _ _ hc]
        apply List.Chain'.append hp (List.chain'_singleton m)
        intro x hx y hy
        rw [List.head?_cons, Option.mem_def, Option.some.injEq] at hy
        rw [Option.mem_def] at hx
        rw [← hy]
        exact Ne.symm (hne x hx)
    · rw [hlookup1]
      exact List.chain'_singleton msg

/-- Iteration with a single registered agent who also spoke last: the
candidate list is empty and the loop body breaks immediately. -/
theorem processIter_break_single (eng : ConversationEngine) (a : Agent) (cid : List Char)
    (ex : Nat) (ch : IterChoice) (hag : eng.agents = [a])
    (hlast : (lookupConv eng.conversations cid).getLast?.map (fun m => m.agent_id)
        = some a.id) :
    processIter eng cid ex ch = (eng, ex, true) := by
  have hfilter : eng.agents.filter (fun a2 => some a2.id
      ≠ (lookupConv eng.conversations cid).getLast?.map (fun m => m.agent_id)) = [] := by
    rw [hag, hlast]
    simp
  simp only [processIter, hfilter]

/-- C8: with exactly one registered agent, processing a freshly started
conversation terminates at once with zero additional exchanges — the
engine state is returned unchanged together with exchange count 0, for
every bound and every fuel, and the conversation still holds only its
seed message. This is the scheduler's normal termination, not an error. -/
theorem single_agent_zero_exchanges (eng0 : ConversationEngine) (a : Agent) (cid : List Char)
    (topic : Option (List Char)) (sp fp tick maxEx fuel : Nat) (oracle : Nat → IterChoice)
    (hag : eng0.agents = [a]) (hfresh : hasConv eng0.conversations cid = false) :
    process_conversation (start_conversation eng0 cid topic sp fp tick) cid maxEx oracle fuel
        = (start_conversation eng0 cid topic sp fp tick, 0)
      ∧ (lookupConv (start_conversation eng0 cid topic sp fp tick).conversations cid).length
          = 1 := by
  obtain ⟨hagents1, hconv1, msg, hmsgid, hmsgagent, hlookup1⟩ :=
    start_conversation_spec eng0 cid topic sp fp tick a [] hag hfresh
  have hag1 : (start_conversation eng0 cid topic sp fp tick).agents = [a] := by
    rw [hagents1, hag]
  have hlast : (lookupConv (start_conversation eng0 cid topic sp fp tick).conversations
      cid).getLast?.map (fun m => m.agent_id) = some a.id := by
    rw [hlookup1]
    simp only [List.getLast?_singleton, Option.map_some']
    rw [hmsgagent, chooseNE_singleton]
  refine ⟨?_, by rw [hlookup1]; rfl⟩
  rw [process_conversation, if_pos hconv1]
  cases fuel with
  | zero => rfl
  | succ fuel =>
    simp only [processLoop]
    by_cases hmax : 0 < maxEx
    · rw [if_pos hmax, processIter_break_single _ a cid 0 (oracle 0) hag1 hlast]
      rfl
    · rw [if_neg hmax]

/-! ### Message-id uniqueness within one run, and its global failure -/

theorem processIter_uniqueIds (eng : ConversationEngine) (cid : List Char) (ex : Nat)
    (ch : IterChoice) (hc : hasConv eng.conversations cid = true)
    (hp : ((lookupConv eng.conversations cid).map (fun m => m.id)).Nodup
        ∧ ∀ m ∈ lookupConv eng.conversations cid,
            (∃ t, m.id = mkSeedId t) ∨ ∃ t e, e < ex ∧ m.id = mkRespId t e) :
    ((lookupConv (processIter eng cid ex ch).1.conversations cid).map (fun m => m.id)).Nodup
      ∧ ∀ m ∈ lookupConv (processIter eng cid ex ch).1.conversations cid,
          (∃ t, m.id = mkSeedId t)
            ∨ ∃ t e, e < (processIter eng cid ex ch).2.1 ∧ m.id = mkRespId t e := by
  obtain ⟨hnd, hforms⟩ := hp
  rcases processIter_spec eng cid ex ch with ⟨he, hex⟩ | ⟨m, hid, _, hconv, hex⟩
  · rw [he, hex]
    exact ⟨hnd, hforms⟩
  · rw [hconv, hex, lookupConv_updateConv _ _ _ hc]
    have hnotmem : m.id ∉ (lookupConv eng.conversations cid).map (fun m2 => m2.id) := by
      intro hmem
      obtain ⟨m2, hm2mem, hm2id⟩ := List.mem_map.mp hmem
      rcases hforms m2 hm2mem with ⟨t, hseed⟩ | ⟨t, e, hlt, hresp⟩
      · exact mkSeedId_ne_mkRespId t ch.tick ex (by rw [← hseed, hm2id, hid])
      · have : e = ex := mkRespId_inj_ex (by rw [← hresp, hm2id, hid])
        omega
    constructor
    · rw [List.map_append, List.nodup_append]
      refine ⟨hnd, List.nodup_singleton _, ?_⟩
      intro x hx hx2
      simp only [List.map_cons, List.map_nil, List.mem_singleton] at hx2
      rw [hx2] at hx
      exact hnotmem hx
    · intro m2 hm2
      rcases List.mem_append.mp hm2 with h | h
      · rcases hforms m2 h with ⟨t, hseed⟩ | ⟨t, e, hlt, hresp⟩
        · exact Or.inl ⟨t, hseed⟩
        · exact Or.inr ⟨t, e, by omega, hresp⟩
      · rw [List.mem_singleton] at h
        subst h
        exact Or.inr ⟨ch.tick, ex, by omega, hid⟩

/-- Per-run uniqueness of message ids in the multi-agent engine: the seed
id has shape `msg_<ms>` (one underscore), each response id
`msg_<ms>_<exchange>` (two underscores) with a strictly increasing
exchange counter. -/
theorem conversation_run_ids_nodup (eng0 : ConversationEngine) (cid : List Char)
    (topic : Option (List Char)) (sp fp tick maxEx fuel : Nat) (oracle : Nat → IterChoice)
    (hfresh : hasConv eng0.conversations cid = false) :
    ((lookupConv (process_conversation (start_conversation eng0 cid topic sp fp tick)
        cid maxEx oracle fuel).1.conversations cid).map (fun m => m.id)).Nodup := by
  match hag : eng0.agents with
  | [] =>
    rw [start_conversation_nil eng0 cid topic sp fp tick hag, process_conversation,
      if_neg (by simp [hfresh]), lookupConv_of_hasConv_false _ _ hfresh]
    simp
  | a :: rest =>
    obtain ⟨hagents1, hconv1, msg, hmsgid, hmsgagent, hlookup1⟩ :=
      start_conversation_spec eng0 cid topic sp fp tick a rest hag hfresh
    rw [process_conversation, if_pos hconv1]
    refine ((processLoop_inv cid maxEx oracle
      (fun conv ex => (conv.map (fun m => m.id)).Nodup
        ∧ ∀ m ∈ conv, (∃ t, m.id = mkSeedId t) ∨ ∃ t e, e < ex ∧ m.id = mkRespId t e)
      (fun eng ex ch hc hp => processIter_uniqueIds eng cid ex ch hc hp)
      fuel 0 0 _ hconv1 ?_).1).1
    rw [hlookup1]
    refine ⟨by simp, ?_⟩
    intro m2 hm2
    rw [List.mem_singleton] at hm2
    subst hm2
    exact Or.inl ⟨tick, hmsgid⟩

/-- Agents and oracles used in the closed witnesses and counterexamples. -/
def exAgentA : Agent :=
  { id := "a1".data, name := "Explorer-001".data, personality_traits := ["curious".data],
    current_focus := "patterns".data, model := "gemma2:2b".data,
    conversation_style := "questioning".data, memory_buffer := [] }

def exAgentB : Agent :=
  { id := "b2".data, name := "Analyzer-002".data, personality_traits := ["analytical".data],
    current_focus := "connections".data, model := "qwen2.5:1.5b".data,
    conversation_style := "direct".data, memory_buffer := [] }

def exOracle : Nat → IterChoice :=
  fun _ => { pick := 0, backend := fun _ => BackendResult.exc, fb := 0, tick := 7 }

def exEngine1 : ConversationEngine :=
  { agents := [exAgentA], conversations := [], message_queue := [] }

def exEngine2 : ConversationEngine :=
  { agents := [exAgentA, exAgentB], conversations := [], message_queue := [] }

/-- Two conversations started during the same clock millisecond: their two
seed messages carry the same id `msg_5` in different conversations, so
message ids are not globally unique across conversations. -/
def exTwoStarts : ConversationEngine :=
  start_conversation (start_conversation exEngine1 "c1".data (some "hello".data) 0 0 5)
    "c2".data (some "hi".data) 0 0 5

/-- C9 counterexample: the global message stream holds one message of
conversation `c1` and one of `c2`, created in the same millisecond, and
their ids coincide — global id uniqueness fails on the code. -/
theorem global_id_uniqueness_counterexample :
    exTwoStarts.message_queue.map (fun m => m.conversation_id)
        = ["c1".data, "c2".data]
      ∧ ¬ (exTwoStarts.message_queue.map (fun m => m.id)).Nodup := by
  constructor
  · decide
  · decide

/-- C9 (amended): message/thought ids are unique within a single run —
one `start_conversation` followed by one `process_conversation` call in
the multi-agent engine, and one `_dream_loop` session in the single-loop
engine — for every oracle behaviour. Global uniqueness across runs does
not hold (see the counterexample): ids are derived from the clock
millisecond alone and collide across conversations or sessions created in
the same millisecond. -/
theorem per_session_ids_nodup :
    (∀ (eng0 : ConversationEngine) (cid : List Char) (topic : Option (List Char))
        (sp fp tick maxEx fuel : Nat) (oracle : Nat → IterChoice),
        hasConv eng0.conversations cid = false →
        ((lookupConv (process_conversation (start_conversation eng0 cid topic sp fp tick)
            cid maxEx oracle fuel).1.conversations cid).map (fun m => m.id)).Nodup)
      ∧ (∀ (seedContent : List Char) (seedTick maxT fuel : Nat)
          (oracle : Nat → DreamChoice) (st0 : DreamState),
          st0.thoughts_generated = [] →
          ((dream_loop seedContent seedTick maxT oracle fuel st0).thoughts_generated.map
            (fun t => t.id)).Nodup) :=
  ⟨fun eng0 cid topic sp fp tick maxEx fuel oracle hfresh =>
    conversation_run_ids_nodup eng0 cid topic sp fp tick maxEx fuel oracle hfresh,
   fun seedContent seedTick maxT fuel oracle st0 hgen =>
    dream_session_ids_nodup seedContent seedTick maxT fuel oracle st0 hgen⟩

def exDreamState : DreamState :=
  { memory := initMemorySystem "dreaming_memory.db".data, golden := [],
    thoughts_generated := [] }

def exDreamOracle : Nat → DreamChoice :=
  fun _ => { running := true, tick := 9, modePick := 0,
             backend := fun _ => BackendResult.exc }

theorem per_session_ids_nodup_witness :
    hasConv exEngine2.conversations "c1".data = false
      ∧ ((lookupConv (process_conversation
            (start_conversation exEngine2 "c1".data (some "t".data) 0 0 5)
            "c1".data 3 exOracle 10).1.conversations "c1".data).map (fun m => m.id)).Nodup
      ∧ exDreamState.thoughts_generated = []
      ∧ ((dream_loop "ocean + time".data 9 3 exDreamOracle 5
            exDreamState).thoughts_generated.map (fun t => t.id)).Nodup :=
  ⟨rfl,
    per_session_ids_nodup.1 exEngine2 "c1".data (some "t".data) 0 0 5 3 10 exOracle rfl,
    rfl,
    per_session_ids_nodup.2 "ocean + time".data 9 3 5 exDreamOracle exDreamState rfl⟩

theorem no_consecutive_speakers_witness :
    2 ≤ exEngine2.agents.length
      ∧ hasConv exEngine2.conversations "c1".data = false
      ∧ List.Chain' (fun m1 m2 => m1.agent_id ≠ m2.agent_id)
          (lookupConv (process_conversation
            (start_conversation exEngine2 "c1".data (some "t".data) 0 0 5)
            "c1".data 3 exOracle 10).1.conversations "c1".data) :=
  ⟨by decide, rfl,
    no_consecutive_speakers exEngine2 "c1".data (some "t".data) 0 0 5 3 10 exOracle
      (by decide) rfl⟩

theorem single_agent_zero_exchanges_witness :
    exEngine1.agents = [exAgentA]
      ∧ hasConv exEngine1.conversations "c1".data = false
      ∧ process_conversation (start_conversation exEngine1 "c1".data (some "t".data) 0 0 5)
          "c1".data 20 exOracle 50
        = (start_conversation exEngine1 "c1".data (some "t".data) 0 0 5, 0) :=
  ⟨rfl, rfl,
    (single_agent_zero_exchanges exEngine1 exAgentA "c1".data (some "t".data) 0 0 5 20 50
      exOracle rfl rfl).1⟩

end Dreaming
